import Mathlib

/-!
# Verification of the DataStore / Broadcaster core

A shallow embedding of the observable-state container found in
`DataStore.ts` / `Broadcaster.ts`:

* state values are JavaScript objects, modelled as association lists of
  field names to primitive values;
* `DataStore.update` shallow-merges a partial value over the current
  state (JS object spread `{...state, ...data}`), compares with
  `deepEqual`, and broadcasts the merged state when it differs;
* `Broadcaster.broadcast` fans the new state out to every observer via
  `BroadcasterObserver.update`, which schedules the callback on
  `requestAnimationFrame`; the aggregate is tracked in the
  `pendingUpdates` ledger through `Promise.allSettled`;
* executions of the single-threaded event loop are modelled as traces
  of atomic events, in the deterministic linearisation produced by the
  browser's scheduling order (synchronous section, then the animation
  frame callbacks in scheduling order, then the microtask reactions).
-/

set_option autoImplicit false

namespace DataStoreSpec

/-- A JavaScript primitive field value stored in a DataStore state. -/
inductive Val where
  | vnull
  | vbool (b : Bool)
  | vnum (n : Int)
  | vstr (s : String)
  deriving DecidableEq, Repr

/-- A store state: a JavaScript object, i.e. an ordered association list of
field names to values (insertion order is significant in JS). -/
abbrev State := List (String × Val)

/-- Property lookup `o[k]` on a JS object. -/
def lookupField (o : State) (k : String) : Option Val :=
  match o.find? (fun e => e.1 = k) with
  | some e => some e.2
  | none => none

/-- JS object spread `{...s, ...p}`: the keys of `s` in order, each taking
`p`'s value when `p` also has the key, followed by the keys of `p` that `s`
lacks, in `p`'s order.  This is the shallow merge used by
`DataStore.update` (`const newState = {...this._internalState, ...data}`). -/
def jsSpread (s p : State) : State :=
  (s.map (fun e => (e.1, (lookupField p e.1).getD e.2))) ++
    p.filter (fun e => lookupField s e.1 = none)

/-- Numeric value of a decimal digit character, if it is one. -/
def decDigit (c : Char) : Option Nat :=
  if c.isDigit then some (c.toNat - '0'.toNat) else none

/-- Numeric value of a hexadecimal digit character, if it is one. -/
def hexDigit (c : Char) : Option Nat :=
  if '0' ≤ c ∧ c ≤ '9' then some (c.toNat - '0'.toNat)
  else if 'a' ≤ c ∧ c ≤ 'f' then some (c.toNat - 'a'.toNat + 10)
  else if 'A' ≤ c ∧ c ≤ 'F' then some (c.toNat - 'A'.toNat + 10)
  else none

/-- Numeric value of an octal digit character, if it is one. -/
def octDigit (c : Char) : Option Nat :=
  if '0' ≤ c ∧ c ≤ '7' then some (c.toNat - '0'.toNat) else none

/-- Numeric value of a binary digit character, if it is one. -/
def binDigit (c : Char) : Option Nat :=
  if c = '0' ∨ c = '1' then some (c.toNat - '0'.toNat) else none

/-- Reads a non-empty digit string in the given base; `none` when empty or
when any character is not a digit of that base. -/
def parseDigitRun (base : Nat) (digitOf : Char → Option Nat)
    (cs : List Char) : Option Nat :=
  if cs.isEmpty then none
  else cs.foldl (fun acc c =>
    match acc, digitOf c with
    | some n, some d => some (n * base + d)
    | _, _ => none) (some 0)

/-- JavaScript `StrUnsignedDecimalLiteral` (sign already stripped):
`DecimalDigits [. DecimalDigits] [ExponentPart]` or
`. DecimalDigits [ExponentPart]`.  Returns the exact mathematical value
when it is an integer (the model idealises JS numbers as exact integers
throughout), `none` for `NaN`, `Infinity`, or a non-integer value — all of
which compare unequal to every integer. -/
def parseUnsignedDecimal (cs : List Char) : Option Int :=
  let mant := cs.takeWhile (fun c => !(c == 'e' || c == 'E'))
  let expPart := cs.dropWhile (fun c => !(c == 'e' || c == 'E'))
  let d1 := mant.takeWhile Char.isDigit
  let rem := mant.dropWhile Char.isDigit
  let d2opt : Option (List Char) :=
    match rem with
    | [] => some []
    | '.' :: r2 => if r2.all Char.isDigit then some r2 else none
    | _ => none
  match d2opt with
  | none => none
  | some d2 =>
    if d1.isEmpty ∧ d2.isEmpty then none
    else
      let expVal : Option Int :=
        match expPart with
        | [] => some 0
        | _ :: er =>
          match er with
          | '+' :: ed => (parseDigitRun 10 decDigit ed).map Int.ofNat
          | '-' :: ed => (parseDigitRun 10 decDigit ed).map (fun n => -(Int.ofNat n))
          | ed => (parseDigitRun 10 decDigit ed).map Int.ofNat
      match expVal, parseDigitRun 10 decDigit (d1 ++ d2) with
      | some e, some mnat =>
        let m : Int := Int.ofNat mnat
        let shift : Int := e - Int.ofNat d2.length
        if 0 ≤ shift then some (m * (10 : Int) ^ shift.toNat)
        else if m % (10 : Int) ^ (-shift).toNat = 0 then
          some (m / (10 : Int) ^ (-shift).toNat)
        else none
      | _, _ => none

/-- The core JS whitespace and line-terminator characters stripped by
`ToNumber` (space, tab, LF, CR, VT, FF). -/
def jsWhitespaceChar (c : Char) : Bool :=
  c = ' ' ∨ c = '\t' ∨ c = '\n' ∨ c = '\r' ∨ c = '\x0b' ∨ c = '\x0c'

/-- Strips leading and trailing JS whitespace. -/
def jsTrim (cs : List Char) : List Char :=
  ((cs.dropWhile jsWhitespaceChar).reverse.dropWhile jsWhitespaceChar).reverse

/-- JavaScript `ToNumber` on a string, as used by the coercive `==`:
whitespace-trimmed; empty means `0`; an optional sign applies only to a
decimal literal; unsigned `0x`/`0o`/`0b` literals are read in their base.
`some n` means the string converts to exactly the integer `n`; `none`
covers `NaN`, infinities and non-integer values, none of which `==` any
integer. -/
def jsStrToNumber (s : String) : Option Int :=
  let t := jsTrim s.data
  if t.isEmpty then some 0
  else
    match t with
    | '+' :: rest => parseUnsignedDecimal rest
    | '-' :: rest => (parseUnsignedDecimal rest).map (fun n => -n)
    | '0' :: x :: rest =>
      if x = 'x' ∨ x = 'X' then (parseDigitRun 16 hexDigit rest).map Int.ofNat
      else if x = 'o' ∨ x = 'O' then (parseDigitRun 8 octDigit rest).map Int.ofNat
      else if x = 'b' ∨ x = 'B' then (parseDigitRun 2 binDigit rest).map Int.ofNat
      else parseUnsignedDecimal t
    | _ => parseUnsignedDecimal t

/-- `ToNumber` on a boolean: `true` is `1`, `false` is `0`. -/
def boolToNumber (b : Bool) : Int :=
  if b then 1 else 0

/-- JavaScript loose equality `==` on primitive leaf values, which the
`deep-equal` package applies in its default (non-strict) mode: `null` only
equals `null` (and `undefined`, absent here); same-type primitives compare
by value; a number and a string compare after `ToNumber` on the string; a
boolean is first converted to its number.  So `0 == false`, `1 == "1"` and
`"" == 0` all hold. -/
def jsLooseEq : Val → Val → Bool
  | .vnull, .vnull => true
  | .vnull, _ => false
  | _, .vnull => false
  | .vbool a, .vbool b => a == b
  | .vnum a, .vnum b => a == b
  | .vstr a, .vstr b => a == b
  | .vnum a, .vstr s => jsStrToNumber s == some a
  | .vstr s, .vnum a => jsStrToNumber s == some a
  | .vbool b, .vnum n => boolToNumber b == n
  | .vnum n, .vbool b => boolToNumber b == n
  | .vbool b, .vstr s => jsStrToNumber s == some (boolToNumber b)
  | .vstr s, .vbool b => jsStrToNumber s == some (boolToNumber b)

/-- Lexicographic order on strings as JS `Array.prototype.sort()` compares
them (by code units; identical to code-point order on our values). -/
def strLtB (x y : String) : Bool :=
  go x.data y.data
where
  go : List Char → List Char → Bool
    | [], [] => false
    | [], _ :: _ => true
    | _ :: _, [] => false
    | a :: as, b :: bs => if a < b then true else if b < a then false else go as bs

/-- Inserts a key into a sorted key list. -/
def insertKey (k : String) : List String → List String
  | [] => [k]
  | x :: xs => if strLtB x k then x :: insertKey k xs else k :: x :: xs

/-- `Object.keys(o)` followed by `.sort()`, as `deep-equal`'s `objEquiv`
does before comparing key arrays. -/
def sortedKeys (o : State) : List String :=
  go (o.map Prod.fst)
where
  go : List String → List String
    | [] => []
    | x :: xs => insertKey x (go xs)

/-- One key's comparison step inside `objEquiv`'s final loop:
`deepEqual(actual[key], expected[key], opts)`, which for primitive leaves
is the loose `==`. -/
def looseValueAt (a b : State) (k : String) : Bool :=
  match lookupField a k, lookupField b k with
  | some va, some vb => jsLooseEq va vb
  | _, _ => false

/-- Model of the `deep-equal` package's default (non-strict) check as
called by `DataStore.update` — `deepEqual(newState, this._internalState)`
with no options: two plain objects are equal when their sorted key arrays
coincide and every key's values compare equal, leaves being compared with
the coercive `==`. -/
def deepEqual (a b : State) : Bool :=
  sortedKeys a == sortedKeys b &&
    (sortedKeys a).all (fun k => looseValueAt a b k)

/-- An atomic event of the single-threaded event loop, used to build
execution traces.  Observers are identified by the registry key (guid)
under which they are stored. -/
inductive Event where
  /-- `this._internalState = ...` : the store commits a new state. -/
  | commit (s : State)
  /-- `this.pendingUpdates[updateGuid] = ...` : a broadcast operation is
  entered into the pending-operations ledger. -/
  | ledgerAdd (guid : Nat)
  /-- `BroadcasterObserver.update` ran `requestAnimationFrame(...)`,
  deferring the callback to the next animation frame. -/
  | rafScheduled (obs : Nat)
  /-- `this.callback(newData)` : observer `obs` is invoked with state `s`
  (a delivery; the callback may still throw after being entered). -/
  | callbackRun (obs : Nat) (s : State)
  /-- Observer `obs`'s callback threw during delivery; `resolve()` on that
  delivery promise is therefore never reached. -/
  | callbackThrew (obs : Nat)
  /-- The delivery promise of observer `obs` resolved. -/
  | deliverySettled (obs : Nat)
  /-- `delete this.pendingUpdates[updateGuid]` : the broadcast operation is
  removed from the ledger after `Promise.allSettled` settles. -/
  | ledgerRemove (guid : Nat)
  /-- The promise returned by `DataStore.update` resolved with `b`. -/
  | updateResolved (b : Bool)
  deriving DecidableEq, Repr

/-- The status of a JS promise as observed at the end of an execution. -/
inductive PStat where
  | resolved (b : Bool)
  | rejectedWith (msg : String)
  | pending
  deriving DecidableEq, Repr

/-- `Promise.allSettled` settles exactly when every input promise has
settled (it never rejects); `flags` lists, per input promise, whether that
promise eventually settles. -/
def allSettledSettles (flags : List Bool) : Bool :=
  flags.all id

/-- `Broadcaster.getObserversToUpdate`: the default observer selection
returns all registered observers (`return this.allObservers`). -/
def getObserversToUpdate (observers : List Nat) (_data : State) : List Nat :=
  observers

/-- The animation-frame section of one `BroadcasterObserver.update` call:
the rAF callback runs `this.callback(newData); resolve();`.  If the
callback throws, the exception propagates out of the rAF task and
`resolve()` is never executed, so the delivery promise never settles. -/
def observerFrameEvents (throwing : List Nat) (obs : Nat) (data : State) : List Event :=
  if obs ∈ throwing then [.callbackRun obs data, .callbackThrew obs]
  else [.callbackRun obs data, .deliverySettled obs]

/-- Whether observer `obs`'s delivery promise settles: it does exactly when
the callback did not throw inside the rAF task. -/
def deliverySettles (throwing : List Nat) (obs : Nat) : Bool :=
  obs ∉ throwing

/-- The outcome of one `Broadcaster.broadcast` call: its event trace and
whether the aggregate `Promise.allSettled` promise ever settles. -/
structure BroadcastRun where
  trace : List Event
  settles : Bool
  deriving DecidableEq, Repr

/-- Model of `Broadcaster.broadcast(data)`, parameterised by the registry
key list `observers` (in insertion order, as `Object.values` yields), the
set `throwing` of observers whose callbacks throw, and the fresh operation
guid.  If the target list is empty it resolves immediately with no ledger
entry; otherwise it records the operation in the ledger, schedules one
rAF-deferred delivery per target, and removes the ledger entry once all
deliveries settle. -/
def Broadcaster.broadcast (observers : List Nat) (throwing : List Nat)
    (guid : Nat) (data : State) : BroadcastRun :=
  let broadcastTo := getObserversToUpdate observers data
  if broadcastTo.isEmpty then
    { trace := [], settles := true }
  else
    let settles := broadcastTo.all (deliverySettles throwing)
    { trace :=
        .ledgerAdd guid :: broadcastTo.map .rafScheduled ++
          broadcastTo.flatMap (fun o => observerFrameEvents throwing o data) ++
          (if settles then [.ledgerRemove guid] else [])
      settles := settles }

/-- The outcome of one `DataStore.update` call: the resulting internal
state, the event trace, and the status of the promise `update` returns. -/
structure UpdateRun where
  finalState : State
  trace : List Event
  result : PStat
  deriving DecidableEq, Repr

/-- Model of `DataStore.update(data)`: shallow-merge `data` over the
current state, return `false` if the merge is deeply equal to the current
state, otherwise commit the merged state, `await this.broadcast(...)`, and
resolve `true` once (and only once) the broadcast promise settles. -/
def DataStore.update (state : State) (data : State) (observers : List Nat)
    (throwing : List Nat) (guid : Nat) : UpdateRun :=
  let newState := jsSpread state data
  if deepEqual newState state then
    { finalState := state, trace := [.updateResolved false], result := .resolved false }
  else
    let b := Broadcaster.broadcast observers throwing guid newState
    { finalState := newState
      trace := .commit newState :: b.trace ++
        (if b.settles then [.updateResolved true] else [])
      result := if b.settles then .resolved true else .pending }

/-- `true` on the events that deliver some state to observer `g`. -/
def isDeliveryTo (g : Nat) : Event → Bool
  | .callbackRun g' _ => g' = g
  | _ => false

/-- What a user transition function returned when an action was invoked:
`null`, `undefined`, a non-object primitive, a plain object (a shallow
partial state), or a promise that resolves to a partial state or rejects. -/
inductive ActionResult where
  | jsNull
  | jsUndefinedResult
  | nonObjectPrim (v : Val)
  | objResult (p : State)
  | promiseOk (p : State)
  | promiseRejected (msg : String)
  deriving DecidableEq, Repr

/-- How a call of a bound action terminates for its caller: either the
bound function itself threw synchronously (the caller never receives an
`{async}` settlement object), or it returned a settlement whose promise has
the given status. -/
inductive FuncOutcome where
  | thrown (msg : String)
  | returned (settlement : PStat)
  deriving DecidableEq, Repr

/-- `true` exactly when the bound action returned an `{async}` settlement
object (as opposed to throwing synchronously). -/
def FuncOutcome.isReturned : FuncOutcome → Bool
  | .returned _ => true
  | .thrown _ => false

/-- The error message thrown by `createActions` when a transition function
returns `null`, `undefined`, or a non-object. -/
def contractViolationMsg : String :=
  "Actions must output data that is compatible with the DataStore's state. Received null, undefined, or a non-object result."

/-- The outcome of invoking one bound action produced by
`DataStore.createActions`. -/
structure ActionRun where
  outcome : FuncOutcome
  finalState : State
  trace : List Event
  deriving DecidableEq, Repr

/-- Model of the bound function `func` built by `DataStore.createActions`
for one action, applied with the transition function's result `r`:
if `r` is `null`, `undefined`, or a non-object (`!result || typeof result
!== "object"`), `func` throws synchronously before constructing any
promise; a plain object is wrapped with `Promise.resolve` and a promise is
awaited, and either way the resolved partial is passed to
`DataStore.update`, whose promise becomes the `async` settlement; a
rejecting promise propagates as a rejected settlement. -/
def DataStore.createActionsFunc (state : State) (observers : List Nat)
    (throwing : List Nat) (guid : Nat) : ActionResult → ActionRun
  | .jsNull =>
    { outcome := .thrown contractViolationMsg, finalState := state, trace := [] }
  | .jsUndefinedResult =>
    { outcome := .thrown contractViolationMsg, finalState := state, trace := [] }
  | .nonObjectPrim _ =>
    { outcome := .thrown contractViolationMsg, finalState := state, trace := [] }
  | .objResult p =>
    let u := DataStore.update state p observers throwing guid
    { outcome := .returned u.result, finalState := u.finalState, trace := u.trace }
  | .promiseOk p =>
    let u := DataStore.update state p observers throwing guid
    { outcome := .returned u.result, finalState := u.finalState, trace := u.trace }
  | .promiseRejected e =>
    { outcome := .returned (.rejectedWith e), finalState := state, trace := [] }

/-- An optional-argument value as JavaScript distinguishes it: an omitted
argument is `undefined`, which is different from passing `null` (a `Val`). -/
inductive JsOpt where
  | jsUndefined
  | jsVal (v : Val)
  deriving DecidableEq, Repr

/-- Model of a `BroadcasterObserver`: the stored callback (identified by a
number, since callbacks are opaque functions) and the stored `params`. -/
structure BroadcasterObserver where
  cbId : Nat
  params : JsOpt
  deriving DecidableEq, Repr

/-- The observer registry `this.observers`: a JS object mapping guid keys
to observers, modelled as an association list in insertion order. -/
abbrev Registry := List (Nat × BroadcasterObserver)

/-- `Object.values(this.observers)` as the list of registry keys, in
insertion order. -/
def allObservers (reg : Registry) : List Nat :=
  reg.map Prod.fst

/-- The error message thrown by `Broadcaster.buildObserver` when props are
required but omitted. -/
def propsRequiredMsg : String :=
  "Props cannot be null, this data store requires props parameters for each observer"

/-- Model of `Broadcaster.buildObserver(callback, props?)`: throws exactly
when `propsRequired && props === undefined`; otherwise constructs the
observer storing the callback and the given props. -/
def Broadcaster.buildObserver (propsRequired : Bool) (cbId : Nat)
    (props : JsOpt) : Except String BroadcasterObserver :=
  if propsRequired ∧ props = .jsUndefined then
    .error propsRequiredMsg
  else
    .ok { cbId := cbId, params := props }

/-- Model of `Broadcaster.saveObserver`: builds the observer (which may
throw before anything is stored), then stores it in the registry under a
fresh guid; on success returns the updated registry and the guid the
destroy handle closes over. -/
def Broadcaster.saveObserver (reg : Registry) (propsRequired : Bool)
    (guid : Nat) (cbId : Nat) (props : JsOpt) :
    Except String (Registry × Nat) :=
  match Broadcaster.buildObserver propsRequired cbId props with
  | .error e => .error e
  | .ok obs => .ok (reg ++ [(guid, obs)], guid)

/-- Model of the destroy handle `() => delete this.observers[guid]`:
removes the entry stored under `guid`; deleting an absent key is a no-op,
so the handle is idempotent. -/
def destroyObserver (reg : Registry) (guid : Nat) : Registry :=
  reg.filter (fun e => e.1 ≠ guid)

/-- Model of invoking a sequence of destroy handles (in the given order,
possibly with repetitions), as `Broadcaster.destroyAll` does. -/
def Broadcaster.destroyAll (reg : Registry) (handles : List Nat) : Registry :=
  handles.foldl destroyObserver reg

/-- Model of `DataStore.nextTick(callback)` followed by the scheduled
continuation `() => observer.callback(this._internalState)` from
`DataStore.observe`: `Promise.allSettled` over the pending-update promises
captured at call time (`pendingFlags` records, per captured promise,
whether it eventually settles) fires the continuation exactly when every
captured promise settles, and the continuation then calls the observer's
stored callback directly — no `requestAnimationFrame` deferral and no
`BroadcasterObserver.update` — with `this._internalState` as it reads at
that later moment (`stateAtDrain`), not a snapshot from subscribe time. -/
def DataStore.nextTickDelivery (pendingFlags : List Bool) (obsGuid : Nat)
    (stateAtDrain : State) : List Event :=
  if allSettledSettles pendingFlags then [.callbackRun obsGuid stateAtDrain]
  else []

/-- Model of `DataStore.observe(callback, props?, updateImmediately)`:
registers the observer via `saveObserver` (propagating its synchronous
throw, in which case the registry is untouched), and, when
`updateImmediately` is set, schedules the one-shot immediate delivery via
`nextTick`.  Returns the updated registry together with the events of the
immediate delivery. -/
def DataStore.observe (reg : Registry) (propsRequired : Bool) (guid : Nat)
    (cbId : Nat) (props : JsOpt) (updateImmediately : Bool)
    (pendingFlags : List Bool) (stateAtDrain : State) :
    Except String (Registry × List Event) :=
  match Broadcaster.saveObserver reg propsRequired guid cbId props with
  | .error e => .error e
  | .ok (reg2, g) =>
    .ok (reg2,
      if updateImmediately then DataStore.nextTickDelivery pendingFlags g stateAtDrain
      else [])

/-- The registry as it stands after a call of `DataStore.observe`: when
`observe` throws, nothing was stored and the registry is unchanged. -/
def registryAfterObserve (reg : Registry) (propsRequired : Bool) (guid : Nat)
    (cbId : Nat) (props : JsOpt) (updateImmediately : Bool)
    (pendingFlags : List Bool) (stateAtDrain : State) : Registry :=
  match DataStore.observe reg propsRequired guid cbId props updateImmediately
      pendingFlags stateAtDrain with
  | .error _ => reg
  | .ok (reg2, _) => reg2

/-! ## Helper lemmas -/

theorem jsLooseEq_refl (v : Val) : jsLooseEq v v = true := by
  cases v <;> simp [jsLooseEq]

theorem lookupField_of_mem {o : State} {k : String} (h : k ∈ o.map Prod.fst) :
    ∃ v, lookupField o k = some v := by
  induction o with
  | nil => cases h
  | cons e t ih =>
    by_cases hk : e.1 = k
    · refine ⟨e.2, ?_⟩
      unfold lookupField
      rw [List.find?_cons_of_pos _ (by simp [hk])]
    · have hmem : k ∈ t.map Prod.fst := by
        rcases List.mem_map.mp h with ⟨x, hx, hfst⟩
        cases List.mem_cons.mp hx with
        | inl hxe => exact absurd (hfst ▸ congrArg Prod.fst hxe).symm hk
        | inr hxt => exact List.mem_map.mpr ⟨x, hxt, hfst⟩
      rcases ih hmem with ⟨v, hv⟩
      refine ⟨v, ?_⟩
      unfold lookupField at hv ⊢
      rw [List.find?_cons_of_neg _ (by simp [hk])]
      exact hv

theorem mem_insertKey {x k : String} {l : List String} :
    x ∈ insertKey k l ↔ x = k ∨ x ∈ l := by
  induction l with
  | nil => simp [insertKey]
  | cons a t ih =>
    unfold insertKey
    split
    · rw [List.mem_cons, ih, List.mem_cons]
      tauto
    · rw [List.mem_cons, List.mem_cons]

theorem mem_sortedKeys_go {k : String} (l : List String) :
    k ∈ sortedKeys.go l ↔ k ∈ l := by
  induction l with
  | nil => exact Iff.rfl
  | cons a t ih =>
    unfold sortedKeys.go
    rw [mem_insertKey, ih, List.mem_cons]

theorem mem_sortedKeys {k : String} {o : State} :
    k ∈ sortedKeys o ↔ k ∈ o.map Prod.fst := by
  unfold sortedKeys
  exact mem_sortedKeys_go (o.map Prod.fst)

theorem deepEqual_refl (a : State) : deepEqual a a = true := by
  unfold deepEqual
  rw [Bool.and_eq_true]
  constructor
  · exact beq_self_eq_true _
  · rw [List.all_eq_true]
    intro k hk
    have hmem : k ∈ a.map Prod.fst := mem_sortedKeys.mp hk
    rcases lookupField_of_mem hmem with ⟨v, hv⟩
    simp [looseValueAt, hv, jsLooseEq_refl]

theorem deepEqual_of_eq {a b : State} (h : a = b) : deepEqual a b = true := by
  subst h
  exact deepEqual_refl a

/-- Fidelity check: the default-mode `deep-equal` treats `{a: 0}` and
`{a: false}` as equal, through the coercive `0 == false`. -/
theorem deepEqual_coerces_number_boolean :
    deepEqual [("a", Val.vnum 0)] [("a", Val.vbool false)] = true := by
  decide

/-- Fidelity check: `{a: 1}` and `{a: "1"}` are loosely deep-equal via
string-to-number coercion. -/
theorem deepEqual_coerces_number_string :
    deepEqual [("a", Val.vnum 1)] [("a", Val.vstr "1")] = true := by
  decide

/-- Fidelity check: at state `{a: 0}` an update with `{a: false}` is a
no-op for the source — `deepEqual({a: false}, {a: 0})` holds loosely — so
`update` resolves `false`, commits nothing and broadcasts nothing. -/
theorem update_noop_on_coercively_equal_merge :
    DataStore.update [("a", Val.vnum 0)] [("a", Val.vbool false)] [1] [] 3 =
      { finalState := [("a", Val.vnum 0)], trace := [.updateResolved false],
        result := .resolved false } := by
  decide

theorem countP_isDeliveryTo_frame (throwing : List Nat) (d : State) (x o : Nat) :
    ((observerFrameEvents throwing o d).countP (isDeliveryTo x)) =
      if o = x then 1 else 0 := by
  unfold observerFrameEvents
  by_cases hx : o = x
  · subst hx
    by_cases hth : o ∈ throwing <;> simp [hth, List.countP_cons, isDeliveryTo]
  · by_cases hth : o ∈ throwing <;> simp [hth, hx, List.countP_cons, isDeliveryTo]

theorem countP_isDeliveryTo_frames (throwing : List Nat) (d : State) (x : Nat)
    (targets : List Nat) :
    ((targets.flatMap (fun o => observerFrameEvents throwing o d)).countP
      (isDeliveryTo x)) = targets.count x := by
  induction targets with
  | nil => rfl
  | cons h t ih =>
    rw [List.flatMap_cons, List.countP_append, ih, List.count_cons,
      countP_isDeliveryTo_frame]
    by_cases hx : h = x <;> simp [hx, Nat.add_comm]

theorem callbackRun_mem_frames (throwing : List Nat) (d : State) {x : Nat}
    {targets : List Nat} (hx : x ∈ targets) :
    Event.callbackRun x d ∈ targets.flatMap (fun o => observerFrameEvents throwing o d) := by
  refine List.mem_flatMap.mpr ⟨x, hx, ?_⟩
  unfold observerFrameEvents
  by_cases hth : x ∈ throwing <;> simp [hth]

theorem countP_isDeliveryTo_map_raf (targets : List Nat) (x : Nat) :
    ((targets.map Event.rafScheduled).countP (isDeliveryTo x)) = 0 := by
  rw [List.countP_eq_zero]
  intro e he
  rcases List.mem_map.mp he with ⟨o, _, rfl⟩
  simp [isDeliveryTo]

theorem broadcast_of_empty (throwing : List Nat) (g : Nat) (d : State) :
    Broadcaster.broadcast [] throwing g d = { trace := [], settles := true } := rfl

theorem broadcast_trace_of_cons (a : Nat) (t : List Nat) (throwing : List Nat)
    (g : Nat) (d : State) :
    (Broadcaster.broadcast (a :: t) throwing g d).trace =
      Event.ledgerAdd g :: (a :: t).map Event.rafScheduled ++
        (a :: t).flatMap (fun o => observerFrameEvents throwing o d) ++
        (if (a :: t).all (deliverySettles throwing) then [Event.ledgerRemove g]
          else []) := rfl

theorem broadcast_settles_of_cons (a : Nat) (t : List Nat) (throwing : List Nat)
    (g : Nat) (d : State) :
    (Broadcaster.broadcast (a :: t) throwing g d).settles =
      (a :: t).all (deliverySettles throwing) := rfl

theorem countP_isDeliveryTo_broadcast (observers throwing : List Nat) (g : Nat)
    (d : State) (x : Nat) :
    ((Broadcaster.broadcast observers throwing g d).trace.countP (isDeliveryTo x)) =
      observers.count x := by
  cases observers with
  | nil => rfl
  | cons a t =>
    rw [broadcast_trace_of_cons, List.countP_append, List.countP_append,
      List.countP_cons_of_neg _ _ (by simp [isDeliveryTo]),
      countP_isDeliveryTo_map_raf, countP_isDeliveryTo_frames]
    have hlast : (if (a :: t).all (deliverySettles throwing) then
        [Event.ledgerRemove g] else []).countP (isDeliveryTo x) = 0 := by
      split <;> simp [isDeliveryTo]
    rw [hlast]
    omega

theorem callbackRun_mem_broadcast (observers throwing : List Nat) (g : Nat)
    (d : State) {x : Nat} (hx : x ∈ observers) :
    Event.callbackRun x d ∈ (Broadcaster.broadcast observers throwing g d).trace := by
  cases observers with
  | nil => cases hx
  | cons a t =>
    rw [broadcast_trace_of_cons]
    refine List.mem_append.mpr (Or.inl ?_)
    exact List.mem_append.mpr (Or.inr (callbackRun_mem_frames throwing d hx))

theorem update_of_deepEqual_true (S P : State) (obs throwing : List Nat) (g : Nat)
    (hde : deepEqual (jsSpread S P) S = true) :
    DataStore.update S P obs throwing g =
      { finalState := S, trace := [.updateResolved false],
        result := .resolved false } := by
  simp [DataStore.update, hde]

theorem update_of_eq (S P : State) (obs throwing : List Nat) (g : Nat)
    (heq : jsSpread S P = S) :
    DataStore.update S P obs throwing g =
      { finalState := S, trace := [.updateResolved false],
        result := .resolved false } :=
  update_of_deepEqual_true S P obs throwing g (by rw [heq]; exact deepEqual_refl S)

theorem update_of_ne (S P : State) (obs throwing : List Nat) (g : Nat)
    (hne : deepEqual (jsSpread S P) S = false) :
    DataStore.update S P obs throwing g =
      { finalState := jsSpread S P
        trace := .commit (jsSpread S P) ::
          (Broadcaster.broadcast obs throwing g (jsSpread S P)).trace ++
          (if (Broadcaster.broadcast obs throwing g (jsSpread S P)).settles then
            [.updateResolved true] else [])
        result := if (Broadcaster.broadcast obs throwing g (jsSpread S P)).settles
          then .resolved true else .pending } := by
  simp [DataStore.update, hne]

/-- `true` on ledger-creation events. -/
def isLedgerAdd : Event → Bool
  | .ledgerAdd _ => true
  | _ => false

/-- `true` on any delivery event (some observer's callback invoked with
some state). -/
def isAnyDelivery : Event → Bool
  | .callbackRun _ _ => true
  | _ => false

/-! ## The claims -/

/-- C1: for every state `S`, shallow-merge partial `P` and registered
observer set, if the shallow merge of `P` over `S` is not deeply equal to
`S` — "deeply equal" being exactly the source's own check, the `deep-equal`
package's default mode with coercive `==` at the leaves — then after
`DataStore.update`'s commit step the store's state equals exactly the
shallow merge `jsSpread S P`, and every observer registered at broadcast
time that `getObserversToUpdate` accepts (the default selection accepts all
of them) receives exactly one delivery carrying that merged state. -/
theorem C1_commit_is_merge_and_each_observer_delivered_once
    (S P : State) (obs throwing : List Nat) (g : Nat)
    (hne : deepEqual (jsSpread S P) S = false) (hnd : obs.Nodup) :
    (DataStore.update S P obs throwing g).finalState = jsSpread S P ∧
    obs.all (fun o =>
      decide ((DataStore.update S P obs throwing g).trace.countP (isDeliveryTo o) = 1) &&
      decide (Event.callbackRun o (jsSpread S P) ∈
        (DataStore.update S P obs throwing g).trace)) = true := by
  rw [update_of_ne S P obs throwing g hne]
  refine ⟨rfl, ?_⟩
  rw [List.all_eq_true]
  intro o ho
  rw [Bool.and_eq_true, decide_eq_true_iff, decide_eq_true_iff]
  constructor
  · show List.countP _ ((Event.commit (jsSpread S P) ::
      (Broadcaster.broadcast obs throwing g (jsSpread S P)).trace) ++ _) = 1
    rw [List.countP_append, List.countP_cons_of_neg _ _ (by simp [isDeliveryTo]),
      countP_isDeliveryTo_broadcast]
    have hopt : (if (Broadcaster.broadcast obs throwing g (jsSpread S P)).settles
        then [Event.updateResolved true] else []).countP (isDeliveryTo o) = 0 := by
      split <;> simp [isDeliveryTo]
    rw [hopt, List.count_eq_one_of_mem hnd ho]
  · show Event.callbackRun o (jsSpread S P) ∈ (Event.commit (jsSpread S P) ::
      (Broadcaster.broadcast obs throwing g (jsSpread S P)).trace) ++ _
    refine List.mem_append.mpr (Or.inl (List.mem_cons.mpr (Or.inr ?_)))
    exact callbackRun_mem_broadcast obs throwing g (jsSpread S P) ho

/-- Witness for C1: a concrete store `{a: 0}` updated with `{a: 1}` over
two registered observers. -/
theorem C1_witness :
    (deepEqual (jsSpread [("a", Val.vnum 0)] [("a", Val.vnum 1)])
      [("a", Val.vnum 0)] = false) ∧
    ([1, 2] : List Nat).Nodup ∧
    ((DataStore.update [("a", Val.vnum 0)] [("a", Val.vnum 1)] [1, 2] [] 7).finalState =
      jsSpread [("a", Val.vnum 0)] [("a", Val.vnum 1)] ∧
    ([1, 2] : List Nat).all (fun o =>
      decide ((DataStore.update [("a", Val.vnum 0)] [("a", Val.vnum 1)] [1, 2] [] 7).trace.countP
        (isDeliveryTo o) = 1) &&
      decide (Event.callbackRun o (jsSpread [("a", Val.vnum 0)] [("a", Val.vnum 1)]) ∈
        (DataStore.update [("a", Val.vnum 0)] [("a", Val.vnum 1)] [1, 2] [] 7).trace)) = true) :=
  ⟨by decide, by decide,
    C1_commit_is_merge_and_each_observer_delivered_once
      [("a", Val.vnum 0)] [("a", Val.vnum 1)] [1, 2] [] 7 (by decide) (by decide)⟩

/-- C2: whenever the shallow merge of `P` over `S` is deeply equal to `S`,
`DataStore.update` resolves `false`, leaves the state unchanged, creates no
pending-ledger entry and performs zero observer deliveries. -/
theorem C2_noop_update_settles_false_without_broadcast
    (S P : State) (obs throwing : List Nat) (g : Nat)
    (heq : jsSpread S P = S) :
    (DataStore.update S P obs throwing g).result = .resolved false ∧
    (DataStore.update S P obs throwing g).finalState = S ∧
    (DataStore.update S P obs throwing g).trace.countP isLedgerAdd = 0 ∧
    (DataStore.update S P obs throwing g).trace.countP isAnyDelivery = 0 := by
  rw [update_of_eq S P obs throwing g heq]
  exact ⟨rfl, rfl, rfl, rfl⟩

/-- Witness for C2: updating `{a: 0}` with `{a: 0}` over a registered
observer. -/
theorem C2_witness :
    (jsSpread [("a", Val.vnum 0)] [("a", Val.vnum 0)] = [("a", Val.vnum 0)]) ∧
    ((DataStore.update [("a", Val.vnum 0)] [("a", Val.vnum 0)] [1] [] 3).result =
      .resolved false ∧
    (DataStore.update [("a", Val.vnum 0)] [("a", Val.vnum 0)] [1] [] 3).finalState =
      [("a", Val.vnum 0)] ∧
    (DataStore.update [("a", Val.vnum 0)] [("a", Val.vnum 0)] [1] [] 3).trace.countP
      isLedgerAdd = 0 ∧
    (DataStore.update [("a", Val.vnum 0)] [("a", Val.vnum 0)] [1] [] 3).trace.countP
      isAnyDelivery = 0) :=
  ⟨by decide,
    C2_noop_update_settles_false_without_broadcast
      [("a", Val.vnum 0)] [("a", Val.vnum 0)] [1] [] 3 (by decide)⟩

/-- C3 (evaluation at the failing input): broadcasting `{a: 1}` to the two
observers `1` and `2` where observer `1`'s callback throws.  Observer `2`
does still receive the state, but because the throw happens inside the
`requestAnimationFrame` task, `resolve()` on observer `1`'s delivery
promise is never reached: that promise never settles, `Promise.allSettled`
never settles, the aggregate broadcast never completes, and its entry is
never removed from the pending-operations ledger — contradicting the
documented "settle all, fail none" intent of the code's own
`Promise.allSettled` use and its "delete it when it's complete" comment. -/
theorem C3_throwing_callback_leaves_broadcast_pending :
    (Event.callbackRun 2 [("a", Val.vnum 1)]) ∈
      (DataStore.update [("a", Val.vnum 0)] [("a", Val.vnum 1)] [1, 2] [1] 7).trace ∧
    (DataStore.update [("a", Val.vnum 0)] [("a", Val.vnum 1)] [1, 2] [1] 7).result =
      .pending ∧
    (Event.ledgerRemove 7) ∉
      (DataStore.update [("a", Val.vnum 0)] [("a", Val.vnum 1)] [1, 2] [1] 7).trace ∧
    (Event.updateResolved true) ∉
      (DataStore.update [("a", Val.vnum 0)] [("a", Val.vnum 1)] [1, 2] [1] 7).trace := by
  decide

/-- C4 (counterexample): with store state `{a: 0}` and one observer, a
transition function returning `null` does not yield a rejected settlement:
the bound action throws synchronously — `FuncOutcome.isReturned` is
`false`, so the caller never receives an `{async}` settlement object at
all.  The state is indeed left unchanged. -/
theorem C4_counterexample_null_throws_synchronously :
    (DataStore.createActionsFunc [("a", Val.vnum 0)] [1] [] 3 .jsNull).outcome.isReturned
      = false ∧
    (DataStore.createActionsFunc [("a", Val.vnum 0)] [1] [] 3 .jsNull).outcome =
      .thrown contractViolationMsg ∧
    (DataStore.createActionsFunc [("a", Val.vnum 0)] [1] [] 3 .jsNull).finalState =
      [("a", Val.vnum 0)] :=
  ⟨rfl, rfl, rfl⟩

/-- C4 (amended): an action whose transition function returns `null`,
`undefined`, or a non-object non-promise value makes the bound action throw
the ContractViolation error synchronously (no settlement object is
returned, hence nothing rejects), and the store's state is left unchanged
with no events — no partial commit occurs. -/
theorem C4_bad_action_result_throws_and_preserves_state
    (S : State) (obs throwing : List Nat) (g : Nat) (r : ActionResult)
    (h : r = .jsNull ∨ r = .jsUndefinedResult ∨ ∃ v, r = .nonObjectPrim v) :
    DataStore.createActionsFunc S obs throwing g r =
      { outcome := .thrown contractViolationMsg, finalState := S, trace := [] } := by
  rcases h with h | h | ⟨v, h⟩ <;> subst h <;> rfl

/-- Witness for the amended C4 at the transition result `null`. -/
theorem C4_witness :
    (ActionResult.jsNull = .jsNull ∨ ActionResult.jsNull = .jsUndefinedResult ∨
      ∃ v, ActionResult.jsNull = ActionResult.nonObjectPrim v) ∧
    DataStore.createActionsFunc [("a", Val.vnum 0)] [1] [] 3 .jsNull =
      { outcome := .thrown contractViolationMsg, finalState := [("a", Val.vnum 0)],
        trace := [] } :=
  ⟨Or.inl rfl,
    C4_bad_action_result_throws_and_preserves_state
      [("a", Val.vnum 0)] [1] [] 3 .jsNull (Or.inl rfl)⟩

/-- C5 (counterexample): a concrete committing update over one observer.
The promise returned by `DataStore.update` (the action's boolean
settlement, since `createActions` returns `update`'s promise as the
`async` value) resolves strictly after the observer's delivery settles —
the code `await`s the broadcast — not "once the broadcast is initiated":
in the trace the `updateResolved true` event sits after `deliverySettled`. -/
theorem C5_counterexample_settlement_waits_for_deliveries :
    (Event.deliverySettled 1) ∈
      (DataStore.update [("a", Val.vnum 0)] [("a", Val.vnum 1)] [1] [] 3).trace ∧
    (Event.updateResolved true) ∈
      (DataStore.update [("a", Val.vnum 0)] [("a", Val.vnum 1)] [1] [] 3).trace ∧
    (DataStore.update [("a", Val.vnum 0)] [("a", Val.vnum 1)] [1] [] 3).trace.indexOf
        (Event.deliverySettled 1) <
      (DataStore.update [("a", Val.vnum 0)] [("a", Val.vnum 1)] [1] [] 3).trace.indexOf
        (Event.updateResolved true) := by
  decide

/-- C5 (amended): when a committing update's boolean settlement resolves
`true`, it does so only after every registered observer's delivery has
settled: `updateResolved true` is always the final trace event, with every
`deliverySettled` strictly before it.  Delivery completion is thus exposed
via the action's return value as well as via the pending ledger (the code
comment in `createActions` says exactly this: the promise resolves "once
the broadcast for this action call has completed"). -/
theorem C5_settlement_resolves_after_all_deliveries_settle
    (S P : State) (obs throwing : List Nat) (g : Nat)
    (h : (DataStore.update S P obs throwing g).result = .resolved true) :
    (DataStore.update S P obs throwing g).trace.getLast? =
      some (.updateResolved true) ∧
    obs.all (fun o => decide (Event.deliverySettled o ∈
      (DataStore.update S P obs throwing g).trace.dropLast)) = true := by
  cases hde : deepEqual (jsSpread S P) S with
  | true =>
    rw [update_of_deepEqual_true S P obs throwing g hde] at h
    cases h
  | false =>
    have hu := update_of_ne S P obs throwing g hde
    have hset : (Broadcaster.broadcast obs throwing g (jsSpread S P)).settles = true := by
      by_contra hcon
      rw [hu] at h
      simp only [Bool.not_eq_true] at hcon
      simp [hcon] at h
    rw [hu]
    simp only [hset, if_true]
    constructor
    · show ((Event.commit (jsSpread S P) ::
        (Broadcaster.broadcast obs throwing g (jsSpread S P)).trace) ++
        [Event.updateResolved true]).getLast? = _
      rw [List.getLast?_append]
      rfl
    · rw [List.all_eq_true]
      intro o ho
      rw [decide_eq_true_iff]
      show Event.deliverySettled o ∈ ((Event.commit (jsSpread S P) ::
        (Broadcaster.broadcast obs throwing g (jsSpread S P)).trace) ++
        [Event.updateResolved true]).dropLast
      rw [List.dropLast_concat]
      refine List.mem_cons.mpr (Or.inr ?_)
      cases hobs : obs with
      | nil => rw [hobs] at ho; cases ho
      | cons a t =>
        rw [hobs] at hset ho
        rw [broadcast_settles_of_cons] at hset
        rw [broadcast_trace_of_cons]
        refine List.mem_append.mpr (Or.inl ?_)
        refine List.mem_append.mpr (Or.inr ?_)
        refine List.mem_flatMap.mpr ⟨o, ho, ?_⟩
        have hnothrow : o ∉ throwing := by
          have := List.all_eq_true.mp hset o ho
          rw [deliverySettles] at this
          exact of_decide_eq_true this
        simp [observerFrameEvents, hnothrow]

/-- Witness for the amended C5: one observer, committing update. -/
theorem C5_witness :
    ((DataStore.update [("a", Val.vnum 0)] [("a", Val.vnum 1)] [1] [] 3).result =
      .resolved true) ∧
    ((DataStore.update [("a", Val.vnum 0)] [("a", Val.vnum 1)] [1] [] 3).trace.getLast? =
      some (.updateResolved true) ∧
    ([1] : List Nat).all (fun o => decide (Event.deliverySettled o ∈
      (DataStore.update [("a", Val.vnum 0)] [("a", Val.vnum 1)] [1] [] 3).trace.dropLast)) =
      true) :=
  ⟨by decide,
    C5_settlement_resolves_after_all_deliveries_settle
      [("a", Val.vnum 0)] [("a", Val.vnum 1)] [1] [] 3 (by decide)⟩

/-! ## The C6 race scenario

A store holds `{a: 0}` and has observer `1` registered; a broadcast of
`{a: 0}` is in flight (its target list was computed before the subscribe,
so it contains only observer `1`).  `observe(cb, undefined, true)` then
registers `cb` as observer `2`, capturing the in-flight broadcast's
promise in `nextTick`.  Before the drain continuation fires, a second
action commits `{a: 1}` (its synchronous commit step runs on a microtask,
which the event loop runs before the pending animation frame).  The drain
continuation then reads `this._internalState`, which is now `{a: 1}`. -/

/-- State current at the time of the `observe` call. -/
def raceState0 : State := [("a", Val.vnum 0)]

/-- Partial update committed by the second action after the subscribe. -/
def racePatch : State := [("a", Val.vnum 1)]

/-- The broadcast already in flight at subscribe time: it delivers
`raceState0` and targets only observer `1`. -/
def raceInflight : BroadcastRun := Broadcaster.broadcast [1] [] 5 raceState0

/-- The second action's update, committing `{a: 1}` to observers `1` and
`2` (observer `2` is registered by then). -/
def raceUpdate : UpdateRun := DataStore.update raceState0 racePatch [1, 2] [] 6

/-- The `observe` call: registers `cb` under guid `2` while the broadcast
is in flight, and schedules the immediate delivery; the drain continuation
later reads the state as committed by the second action. -/
def raceObserve : Except String (Registry × List Event) :=
  DataStore.observe [(1, { cbId := 10, params := .jsUndefined })] false 2 20
    .jsUndefined true [raceInflight.settles] raceUpdate.finalState

/-- One linearisation of the whole scenario's event-loop execution. -/
def raceTrace : List Event :=
  raceInflight.trace ++ raceUpdate.trace ++
    (match raceObserve with
     | .ok (_, evs) => evs
     | .error _ => [])

/-- C6 (counterexample): in the race scenario, `cb` (observer `2`) is
invoked — with the commit that happened after the subscribe — but it is
never invoked with `{a: 0}`, the state value that was current at the time
of the `observe` call: the drain continuation reads `this._internalState`
at delivery time, and the in-flight broadcast's target list, computed
before the subscribe, never included `cb`. -/
theorem C6_counterexample_observe_time_state_never_delivered :
    Event.callbackRun 2 (jsSpread raceState0 racePatch) ∈ raceTrace ∧
    Event.callbackRun 2 raceState0 ∉ raceTrace := by
  decide

/-- C6 (amended): `observe(cb, props, true)` results in `cb` being invoked
at least once — with the store's state as read when the drain barrier
fires, which equals the state current at call time whenever no further
commit intervenes — provided every pending operation captured at subscribe
time settles.  The initial delivery is produced for the new observer
independently of the registry contents and of the broadcast engine's
observer selection (`DataStore.observe` never consults
`getObserversToUpdate` for it). -/
theorem C6_immediate_delivery_reaches_new_observer
    (reg : Registry) (pendingFlags : List Bool) (guid cbId : Nat) (props : JsOpt)
    (stateAtObserve stateAtDrain : State)
    (hsettle : allSettledSettles pendingFlags = true)
    (hsame : stateAtDrain = stateAtObserve) :
    DataStore.observe reg false guid cbId props true pendingFlags stateAtDrain =
      .ok (reg ++ [(guid, { cbId := cbId, params := props })],
        [Event.callbackRun guid stateAtObserve]) := by
  subst hsame
  simp [DataStore.observe, Broadcaster.saveObserver, Broadcaster.buildObserver,
    DataStore.nextTickDelivery, hsettle]

/-- Witness for the amended C6: empty registry, one settled pending
operation, no intervening commit. -/
theorem C6_witness :
    (allSettledSettles [true] = true) ∧
    (([("a", Val.vnum 0)] : State) = [("a", Val.vnum 0)]) ∧
    DataStore.observe [] false 2 9 .jsUndefined true [true] [("a", Val.vnum 0)] =
      .ok ([(2, { cbId := 9, params := .jsUndefined })],
        [Event.callbackRun 2 [("a", Val.vnum 0)]]) :=
  ⟨rfl, rfl,
    C6_immediate_delivery_reaches_new_observer [] [true] 2 9 .jsUndefined
      [("a", Val.vnum 0)] [("a", Val.vnum 0)] rfl rfl⟩

theorem destroyAll_eq_filter (L : List Nat) (reg : Registry) :
    Broadcaster.destroyAll reg L = reg.filter (fun e => decide (e.1 ∉ L)) := by
  induction L generalizing reg with
  | nil => simp [Broadcaster.destroyAll]
  | cons a L ih =>
    show Broadcaster.destroyAll (destroyObserver reg a) L = _
    rw [ih, destroyObserver, List.filter_filter]
    apply List.filter_congr
    intro e _
    by_cases h1 : e.1 = a <;> by_cases h2 : e.1 ∈ L <;> simp [h1, h2]

theorem allObservers_filter (reg : Registry) (p : Nat → Bool) :
    allObservers (reg.filter (fun e => p e.1)) = (allObservers reg).filter p := by
  induction reg with
  | nil => rfl
  | cons e t ih =>
    cases h : p e.1 <;> simp [allObservers, List.filter_cons, h] <;>
      simpa [allObservers] using ih

theorem length_filter_not_mem (gl D : List Nat)
    (hnd : gl.Nodup) (hndD : D.Nodup) (hsub : ∀ d ∈ D, d ∈ gl) :
    (gl.filter (fun x => decide (x ∉ D))).length = gl.length - D.length := by
  have hperm : List.Perm (gl.filter (fun x => decide (x ∈ D))) D := by
    rw [List.perm_ext_iff_of_nodup (hnd.filter _) hndD]
    intro x
    simp only [List.mem_filter, decide_eq_true_iff]
    exact ⟨fun h => h.2, fun h => ⟨hsub x h, h⟩⟩
  have hlenD : (gl.filter (fun x => decide (x ∈ D))).length = D.length :=
    hperm.length_eq
  have hsplit : (gl.filter (fun x => decide (x ∈ D))).length +
      (gl.filter (fun x => decide (x ∉ D))).length = gl.length := by
    rw [← List.countP_eq_length_filter, ← List.countP_eq_length_filter]
    have := List.length_eq_countP_add_countP (fun x => decide (x ∈ D)) gl
    rw [this]
    congr 1
    apply List.countP_congr
    intro x _
    simp
  omega

/-- C7: registering `N` observers then invoking the destroy handles of a
subset `D` of them (in any invocation order `L`, with repetitions allowed —
an idempotent `delete`) leaves exactly the `N − |D|` still-registered
observers; a subsequent broadcast delivers exactly once to each survivor
and zero times to every destroyed observer. -/
theorem C7_destroy_handles_remove_observers_from_later_broadcasts
    (reg : Registry) (D L : List Nat) (data : State) (throwing : List Nat) (g : Nat)
    (hndreg : (allObservers reg).Nodup) (hndD : D.Nodup)
    (hLD : ∀ x ∈ L, x ∈ D) (hDL : ∀ x ∈ D, x ∈ L)
    (hDreg : ∀ d ∈ D, d ∈ allObservers reg) :
    (Broadcaster.destroyAll reg L).length = reg.length - D.length ∧
    D.all (fun d => decide
      (((Broadcaster.broadcast (allObservers (Broadcaster.destroyAll reg L))
        throwing g data).trace.countP (isDeliveryTo d)) = 0)) = true ∧
    (Broadcaster.destroyAll reg L).all (fun e => decide
      (((Broadcaster.broadcast (allObservers (Broadcaster.destroyAll reg L))
        throwing g data).trace.countP (isDeliveryTo e.1)) = 1)) = true := by
  have hfilt : Broadcaster.destroyAll reg L =
      reg.filter (fun e => decide (e.1 ∉ D)) := by
    rw [destroyAll_eq_filter]
    apply List.filter_congr
    intro e _
    by_cases h : e.1 ∈ D
    · simp [h, hDL e.1 h]
    · have : e.1 ∉ L := fun hc => h (hLD e.1 hc)
      simp [h, this]
  have hobs : allObservers (Broadcaster.destroyAll reg L) =
      (allObservers reg).filter (fun x => decide (x ∉ D)) := by
    rw [hfilt]
    exact allObservers_filter reg (fun x => decide (x ∉ D))
  refine ⟨?_, ?_, ?_⟩
  · have h1 : (Broadcaster.destroyAll reg L).length =
        (allObservers (Broadcaster.destroyAll reg L)).length := by
      rw [allObservers, List.length_map]
    have h2 : reg.length = (allObservers reg).length := by
      rw [allObservers, List.length_map]
    rw [h1, h2, hobs]
    exact length_filter_not_mem (allObservers reg) D hndreg hndD hDreg
  · rw [List.all_eq_true]
    intro d hd
    rw [decide_eq_true_iff, countP_isDeliveryTo_broadcast, List.count_eq_zero]
    intro hmem
    rw [hobs] at hmem
    have := (List.mem_filter.mp hmem).2
    rw [decide_eq_true_iff] at this
    exact this hd
  · rw [List.all_eq_true]
    intro e he
    rw [decide_eq_true_iff, countP_isDeliveryTo_broadcast]
    have hmem : e.1 ∈ allObservers (Broadcaster.destroyAll reg L) :=
      List.mem_map.mpr ⟨e, he, rfl⟩
    have hnd2 : (allObservers (Broadcaster.destroyAll reg L)).Nodup := by
      rw [hobs]
      exact hndreg.filter _
    exact List.count_eq_one_of_mem hnd2 hmem

/-- Witness for C7: three observers, observer `2` destroyed twice. -/
theorem C7_witness :
    ((allObservers [(1, { cbId := 10, params := .jsUndefined }),
      (2, { cbId := 11, params := .jsUndefined }),
      (3, { cbId := 12, params := .jsUndefined })]).Nodup) ∧
    (([2] : List Nat).Nodup) ∧
    (∀ x ∈ ([2, 2] : List Nat), x ∈ ([2] : List Nat)) ∧
    (∀ x ∈ ([2] : List Nat), x ∈ ([2, 2] : List Nat)) ∧
    (∀ d ∈ ([2] : List Nat), d ∈ allObservers [(1, { cbId := 10, params := .jsUndefined }),
      (2, { cbId := 11, params := .jsUndefined }),
      (3, { cbId := 12, params := .jsUndefined })]) ∧
    ((Broadcaster.destroyAll [(1, { cbId := 10, params := .jsUndefined }),
      (2, { cbId := 11, params := .jsUndefined }),
      (3, { cbId := 12, params := .jsUndefined })] [2, 2]).length =
        ([(1, ({ cbId := 10, params := .jsUndefined } : BroadcasterObserver)),
          (2, { cbId := 11, params := .jsUndefined }),
          (3, { cbId := 12, params := .jsUndefined })]).length - ([2] : List Nat).length ∧
    ([2] : List Nat).all (fun d => decide
      (((Broadcaster.broadcast (allObservers (Broadcaster.destroyAll
        [(1, { cbId := 10, params := .jsUndefined }),
         (2, { cbId := 11, params := .jsUndefined }),
         (3, { cbId := 12, params := .jsUndefined })] [2, 2]))
        [] 9 [("a", Val.vnum 0)]).trace.countP (isDeliveryTo d)) = 0)) = true ∧
    (Broadcaster.destroyAll [(1, { cbId := 10, params := .jsUndefined }),
      (2, { cbId := 11, params := .jsUndefined }),
      (3, { cbId := 12, params := .jsUndefined })] [2, 2]).all (fun e => decide
      (((Broadcaster.broadcast (allObservers (Broadcaster.destroyAll
        [(1, { cbId := 10, params := .jsUndefined }),
         (2, { cbId := 11, params := .jsUndefined }),
         (3, { cbId := 12, params := .jsUndefined })] [2, 2]))
        [] 9 [("a", Val.vnum 0)]).trace.countP (isDeliveryTo e.1)) = 1)) = true) :=
  ⟨by decide, by decide, by decide, by decide, by decide,
    C7_destroy_handles_remove_observers_from_later_broadcasts
      [(1, { cbId := 10, params := .jsUndefined }),
       (2, { cbId := 11, params := .jsUndefined }),
       (3, { cbId := 12, params := .jsUndefined })]
      [2] [2, 2] [("a", Val.vnum 0)] [] 9
      (by decide) (by decide) (by decide) (by decide) (by decide)⟩

/-- `true` on rAF-deferral events. -/
def isRafScheduled : Event → Bool
  | .rafScheduled _ => true
  | _ => false

/-- C8: on a store built with `propsRequired = true`, calling `observe`
with the `props` argument omitted (`undefined`) raises the
ConfigurationError synchronously — `buildObserver` throws before
`saveObserver` ever stores anything — so the observer registry is exactly
what it was before the call. -/
theorem C8_props_required_throws_before_registration
    (reg : Registry) (guid cbId : Nat) (updImm : Bool) (flags : List Bool)
    (st : State) :
    DataStore.observe reg true guid cbId .jsUndefined updImm flags st =
      .error propsRequiredMsg ∧
    registryAfterObserve reg true guid cbId .jsUndefined updImm flags st = reg := by
  exact ⟨rfl, rfl⟩

/-- C9: on a store built with `propsRequired = true`, the required-props
check fires only when `props === undefined`: any defined value — including
JavaScript `null` — passes the check and the observer is registered
normally with that value stored as its `params`. -/
theorem C9_props_check_only_rejects_undefined
    (reg : Registry) (guid cbId : Nat) (v : Val) (updImm : Bool)
    (flags : List Bool) (st : State) :
    DataStore.observe reg true guid cbId (.jsVal v) updImm flags st =
      .ok (reg ++ [(guid, { cbId := cbId, params := .jsVal v })],
        if updImm then DataStore.nextTickDelivery flags guid st else []) := by
  simp [DataStore.observe, Broadcaster.saveObserver, Broadcaster.buildObserver]

/-- C10: the one-shot immediate delivery scheduled by `observe(cb, props,
true)` invokes the stored callback directly inside the drain-barrier
continuation: the delivery is a single `callbackRun` carrying the state as
read at delivery time (`DataStore.nextTickDelivery` is a function of
`stateAtDrain` only — no subscribe-time snapshot exists in the code), and
no `rafScheduled` event occurs, i.e. `BroadcasterObserver.update` (and any
custom observer class override of it) is bypassed and nothing is deferred
to the next animation frame. -/
theorem C10_immediate_delivery_direct_with_drain_time_state
    (flags : List Bool) (obsGuid : Nat) (stateAtDrain : State)
    (h : allSettledSettles flags = true) :
    DataStore.nextTickDelivery flags obsGuid stateAtDrain =
      [Event.callbackRun obsGuid stateAtDrain] ∧
    (DataStore.nextTickDelivery flags obsGuid stateAtDrain).countP
      isRafScheduled = 0 := by
  unfold DataStore.nextTickDelivery
  rw [h]
  exact ⟨rfl, rfl⟩

/-- Witness for C10. -/
theorem C10_witness :
    (allSettledSettles [true] = true) ∧
    (DataStore.nextTickDelivery [true] 2 [("a", Val.vnum 0)] =
      [Event.callbackRun 2 [("a", Val.vnum 0)]] ∧
    (DataStore.nextTickDelivery [true] 2 [("a", Val.vnum 0)]).countP
      isRafScheduled = 0) :=
  ⟨rfl, C10_immediate_delivery_direct_with_drain_time_state [true] 2
    [("a", Val.vnum 0)] rfl⟩

end DataStoreSpec
